import Mathlib

/-!
Verification of the percolation / relative-permeability core of the OpenPNM
repository, centered on `openpnm/algorithms/OrdinaryPercolation.py`,
`openpnm/algorithms/RelativePermeability.py` and
`OpenPNM/Utilities/__Tools__.py`.

Numpy float arrays holding capillary pressures are modelled as functions
`Fin n → Option ℚ`, where `none` stands for `np.inf` (the initial value of
the invasion-pressure arrays) and `some x` for a finite float.  Thresholds
coming from the pressure sweep are finite rationals.  Integer arrays are
modelled over `ℤ`, boolean masks over `Bool`.
-/

namespace OpenPNMCore

/-- An invasion-pressure value: `none` plays the role of numpy `inf`. -/
abbrev IP := Option ℚ

/-- Elementwise `pressure <= threshold` as numpy evaluates it
(`inf <= v` is false for a finite `v`). -/
def ipLeThr (a : IP) (v : ℚ) : Bool :=
  match a with
  | none => false
  | some x => decide (x ≤ v)

/-- Elementwise `pressure < threshold` (`inf < v` is false for finite `v`). -/
def ipLtThr (a : IP) (v : ℚ) : Bool :=
  match a with
  | none => false
  | some x => decide (x < v)

/-- Elementwise `pressure > threshold` (`inf > v` is true for finite `v`). -/
def ipGtThr (a : IP) (v : ℚ) : Bool :=
  match a with
  | none => true
  | some x => decide (v < x)

/-- Strict comparison of two pressure values, `inf` being the greatest. -/
def ipLt (a b : IP) : Bool :=
  match a, b with
  | none, _ => false
  | some _, none => true
  | some x, some y => decide (x < y)

/-- Non-strict comparison of two pressure values, `inf` being the greatest. -/
def ipLe (a b : IP) : Bool :=
  match a, b with
  | _, none => true
  | none, some _ => false
  | some x, some y => decide (x ≤ y)

/-- Minimum of two pressure values (`inf` is the neutral element). -/
def ipMin (a b : IP) : IP := if ipLe a b then a else b

/-- `np.amin` over a float array that may contain `inf`; the empty array is
sent to `inf`, and this model only uses it on nonempty arrays. -/
def npAminIP (l : List IP) : IP := l.foldr ipMin none

/-- Number of `True` entries of a boolean mask, i.e. `np.sum` of a bool
array; the source uses `sp.sum(mask) == 0` to test for an all-false mask. -/
def npSumBool {n : ℕ} (mask : Fin n → Bool) : ℕ :=
  (List.finRange n).countP mask

/-- The (immutable) network topology: `Np` pores, `Nt` throats, and the
`throat.conns` array giving the two pores joined by each throat. -/
structure Network (Np Nt : ℕ) where
  conns : Fin Nt → Fin Np × Fin Np

/-- The settings of `OrdinaryPercolation` that `run` consults:
`settings['mode']` and `settings['access_limited']`. -/
structure PercSettings where
  mode : String
  accessLimited : Bool

/-- The invasion state stored on an `OrdinaryPercolation` object: the data
arrays written by `reset` (`pore.invasion_pressure`,
`throat.invasion_pressure`, `pore.invasion_sequence`,
`throat.invasion_sequence`, `pore.inlets`, `pore.outlets`, `pore.residual`,
`throat.residual`). -/
structure InvState (Np Nt : ℕ) where
  poreInvPressure : Fin Np → IP
  throatInvPressure : Fin Nt → IP
  poreInvSeq : Fin Np → ℤ
  throatInvSeq : Fin Nt → ℤ
  poreInlets : Fin Np → Bool
  poreOutlets : Fin Np → Bool
  poreResidual : Fin Np → Bool
  throatResidual : Fin Nt → Bool

/-- `OrdinaryPercolation.reset`: invasion pressures to `inf`, invasion
sequences to `-1`, all masks to `False`. -/
def reset (Np Nt : ℕ) : InvState Np Nt where
  poreInvPressure := fun _ => none
  throatInvPressure := fun _ => none
  poreInvSeq := fun _ => -1
  throatInvSeq := fun _ => -1
  poreInlets := fun _ => false
  poreOutlets := fun _ => false
  poreResidual := fun _ => false
  throatResidual := fun _ => false

/-- Cluster labels as returned by the percolation labelers: one integer per
site and per bond, `-1` meaning "not in any invaded cluster". -/
structure CLabels (Np Nt : ℕ) where
  sites : Fin Np → ℤ
  bonds : Fin Nt → ℤ

/-- Whether throat `t` has pore `i` as one of its two endpoints. -/
def bondTouches {Np Nt : ℕ} (net : Network Np Nt) (t : Fin Nt) (i : Fin Np) :
    Bool :=
  (net.conns t).1 == i || (net.conns t).2 == i

/-- Adjacency of two pores through some open throat. -/
def openBondAdj {Np Nt : ℕ} (net : Network Np Nt) (tmask : Fin Nt → Bool)
    (i j : Fin Np) : Bool :=
  (List.finRange Nt).any fun t =>
    tmask t && bondTouches net t i && bondTouches net t j

/-- Bounded-depth reachability through a boolean adjacency relation; depth
`Np` suffices for any path in a graph on `Np` sites. -/
def reachN {Np : ℕ} (adj : Fin Np → Fin Np → Bool) :
    ℕ → Fin Np → Fin Np → Bool
  | 0, i, j => i == j
  | n + 1, i, j =>
      i == j || (List.finRange Np).any fun k => adj i k && reachN adj n k j

/-- Two pores lie in the same cluster of the open-bond subgraph. -/
def bondConnected {Np Nt : ℕ} (net : Network Np Nt)
    (tmask : Fin Nt → Bool) (i j : Fin Np) : Bool :=
  reachN (openBondAdj net tmask) Np i j

/-- Pore `i` touches at least one open throat. -/
def poreTouched {Np Nt : ℕ} (net : Network Np Nt) (tmask : Fin Nt → Bool)
    (i : Fin Np) : Bool :=
  (List.finRange Nt).any fun t => tmask t && bondTouches net t i

/-- Modelled from the spec: `openpnm.topotools.bond_percolation` is not part
of the given sources; per spec §4.1 (bond mode) connectivity is the
transitive closure over open bonds, a site is labeled by the cluster of any
open bond touching it, sites touching no open bond get `-1`, and cluster
ids are arbitrary but deterministic (here: least member site index). -/
def bond_percolation {Np Nt : ℕ} (net : Network Np Nt)
    (tmask : Fin Nt → Bool) : CLabels Np Nt where
  sites := fun i =>
    if poreTouched net tmask i then
      match ((List.finRange Np).filter fun j =>
          poreTouched net tmask j && bondConnected net tmask i j).head? with
      | some j => (j : ℤ)
      | none => -1
    else -1
  bonds := fun t =>
    if tmask t then
      if poreTouched net tmask (net.conns t).1 then
        match ((List.finRange Np).filter fun j =>
            poreTouched net tmask j &&
            bondConnected net tmask (net.conns t).1 j).head? with
        | some j => (j : ℤ)
        | none => -1
      else -1
    else -1

/-- Adjacency of two open pores through any throat (site mode). -/
def openSiteAdj {Np Nt : ℕ} (net : Network Np Nt) (pmask : Fin Np → Bool)
    (i j : Fin Np) : Bool :=
  pmask i && pmask j &&
    (List.finRange Nt).any fun t => bondTouches net t i && bondTouches net t j

/-- Two open pores lie in the same cluster of the open-site subgraph. -/
def siteConnected {Np Nt : ℕ} (net : Network Np Nt)
    (pmask : Fin Np → Bool) (i j : Fin Np) : Bool :=
  reachN (openSiteAdj net pmask) Np i j

/-- Modelled from the spec: `openpnm.topotools.site_percolation` is not part
of the given sources; per spec §4.1 (site mode) sites are open/closed per
the mask, closed sites are always `-1`, and a bond is labeled only if both
endpoints are open and in the same site cluster. -/
def site_percolation {Np Nt : ℕ} (net : Network Np Nt)
    (pmask : Fin Np → Bool) : CLabels Np Nt where
  sites := fun i =>
    if pmask i then
      match ((List.finRange Np).filter fun j =>
          pmask j && siteConnected net pmask i j).head? with
      | some j => (j : ℤ)
      | none => -1
    else -1
  bonds := fun t =>
    if pmask (net.conns t).1 && pmask (net.conns t).2 &&
        siteConnected net pmask (net.conns t).1 (net.conns t).2 then
      match ((List.finRange Np).filter fun j =>
          pmask j && siteConnected net pmask (net.conns t).1 j).head? with
      | some j => (j : ℤ)
      | none => -1
    else -1

/-- Modelled from the spec: `openpnm.topotools.remove_isolated_clusters` is
not part of the given sources; per spec §4.2 any cluster id not containing
at least one inlet site is reset to `-1` on both label arrays, entries
already `-1` stay `-1`, and it is a pure function. -/
def remove_isolated_clusters {Np Nt : ℕ} (labels : CLabels Np Nt)
    (inlets : Fin Np → Bool) : CLabels Np Nt :=
  let keep : ℤ → Bool := fun L =>
    (List.finRange Np).any fun i => inlets i && (labels.sites i == L)
  { sites := fun i =>
      if 0 ≤ labels.sites i ∧ keep (labels.sites i) = true then
        labels.sites i
      else -1
    bonds := fun t =>
      if 0 ≤ labels.bonds t ∧ keep (labels.bonds t) = true then
        labels.bonds t
      else -1 }

/-- The cluster labels computed in one iteration of the threshold loop of
`OrdinaryPercolation.run` at applied pressure `v`: `bond_percolation` on the
mask `throat.entry_pressure <= inv_val` in bond mode, `site_percolation` on
the mask `pore.entry_pressure <= inv_val` in site mode, then optionally
`remove_isolated_clusters` with the inlet pores when `access_limited`. -/
def labelsAt {Np Nt : ℕ} (net : Network Np Nt) (settings : PercSettings)
    (tentry : Fin Nt → ℚ) (pentry : Fin Np → ℚ) (inlets : Fin Np → Bool)
    (v : ℚ) : CLabels Np Nt :=
  let labs :=
    if settings.mode = "bond" then
      bond_percolation net fun t => decide (tentry t ≤ v)
    else
      site_percolation net fun p => decide (pentry p ≤ v)
  if settings.accessLimited then remove_isolated_clusters labs inlets
  else labs

/-- The body of the threshold loop of `OrdinaryPercolation.run`: at applied
pressure `v`, store `v` as invasion pressure of every pore/throat whose
invasion pressure is still `inf` and whose cluster label is `>= 0`.
`inlets` is the `Pin` array captured before the loop. -/
def sweepStep {Np Nt : ℕ} (net : Network Np Nt) (settings : PercSettings)
    (tentry : Fin Nt → ℚ) (pentry : Fin Np → ℚ) (inlets : Fin Np → Bool)
    (s : InvState Np Nt) (v : ℚ) : InvState Np Nt :=
  let labs := labelsAt net settings tentry pentry inlets v
  { s with
    poreInvPressure := fun i =>
      if s.poreInvPressure i == none && decide (0 ≤ labs.sites i) then
        some v
      else s.poreInvPressure i
    throatInvPressure := fun t =>
      if s.throatInvPressure t == none && decide (0 ≤ labs.bonds t) then
        some v
      else s.throatInvPressure t }

/-- `sp.unique`: the sorted distinct values of a float array (`inf`, i.e.
`none`, sorts last). -/
def np_unique (l : List IP) : List IP :=
  l.dedup.insertionSort fun a b => ipLe a b = true

/-- `sp.searchsorted(u, x)` with the default `side='left'` on a sorted array
`u`: the insertion index of `x`, which equals the number of entries of `u`
strictly below `x`. -/
def np_searchsorted (u : List IP) (x : IP) : ℕ :=
  u.countP fun y => ipLt y x

/-- The epilogue of `OrdinaryPercolation.run` (after the threshold loop):
`invasion_sequence = searchsorted(unique(invasion_pressure),
invasion_pressure)` for pores and for throats. -/
def applySeq {Np Nt : ℕ} (s : InvState Np Nt) : InvState Np Nt :=
  { s with
    poreInvSeq := fun i =>
      (np_searchsorted (np_unique (List.ofFn s.poreInvPressure))
        (s.poreInvPressure i) : ℤ)
    throatInvSeq := fun t =>
      (np_searchsorted (np_unique (List.ofFn s.throatInvPressure))
        (s.throatInvPressure t) : ℤ) }

/-- `OrdinaryPercolation.run` for a caller-supplied array of pressure
points (`points` not an int, so no auto-generation): raise if the mode is
neither `'bond'` nor `'site'`; raise if `access_limited` and no inlet pores
are set; otherwise sweep the points in order with `sweepStep` and finish by
converting invasion pressures into sequence values.  The entry-pressure
arrays stand for `phase[settings['..._entry_pressure']]`. -/
def run {Np Nt : ℕ} (net : Network Np Nt) (settings : PercSettings)
    (tentry : Fin Nt → ℚ) (pentry : Fin Np → ℚ) (points : List ℚ)
    (s : InvState Np Nt) : Except String (InvState Np Nt) :=
  if settings.mode ≠ "bond" ∧ settings.mode ≠ "site" then
    Except.error "Percolation type has not been set"
  else if settings.accessLimited = true ∧ npSumBool s.poreInlets = 0 then
    Except.error "Inlet pores must be specified first"
  else
    Except.ok (applySeq
      (points.foldl
        (sweepStep net settings tentry pentry s.poreInlets) s))

/-- The invasion state visible on the algorithm object after a call of
`run`: the new state on success; on an exception the invasion-state arrays
are untouched, because both `raise` statements precede every write to an
invasion-state array. -/
def runFinal {Np Nt : ℕ} (net : Network Np Nt) (settings : PercSettings)
    (tentry : Fin Nt → ℚ) (pentry : Fin Np → ℚ) (points : List ℚ)
    (s : InvState Np Nt) : InvState Np Nt :=
  match run net settings tentry pentry points s with
  | Except.ok s' => s'
  | Except.error _ => s

/-- `OrdinaryPercolation.results(Pc)`: the pair of occupancy arrays
(`pore.occupancy`, `throat.occupancy`), floats that are `1.0` where
`invasion_pressure <= Pc` and `0.0` elsewhere. -/
def results {Np Nt : ℕ} (s : InvState Np Nt) (Pc : ℚ) :
    (Fin Np → ℚ) × (Fin Nt → ℚ) :=
  (fun i => if ipLeThr (s.poreInvPressure i) Pc then 1 else 0,
   fun t => if ipLeThr (s.throatInvPressure t) Pc then 1 else 0)

/-- A call of the `results` method viewed as (post-state, returned dict):
the method body only reads the invasion-pressure arrays, so the post-state
is the unchanged input state. -/
def resultsCall {Np Nt : ℕ} (s : InvState Np Nt) (Pc : ℚ) :
    InvState Np Nt × ((Fin Np → ℚ) × (Fin Nt → ℚ)) :=
  (s, results s Pc)

/-- Modelled from the spec: `GenericPercolation._is_percolating` (the
Percolation Tester) is not part of the given sources; per spec §4.3 it
checks whether any inlet site and any outlet site share a cluster of the
subgraph restricted to masked-open bonds. -/
def spec_ispercolating {Np Nt : ℕ} (net : Network Np Nt)
    (tmask : Fin Nt → Bool) (inlets outlets : Fin Np → Bool) : Bool :=
  (List.finRange Np).any fun i =>
    inlets i && (List.finRange Np).any fun o =>
      outlets o && bondConnected net tmask i o

/-- The pressures of the outlet pores, `pore.invasion_pressure[Pout]`. -/
def outletPressures {Np Nt : ℕ} (s : InvState Np Nt) : List IP :=
  ((List.finRange Np).filter fun i => s.poreOutlets i).map s.poreInvPressure

/-- `OrdinaryPercolation.is_percolating(applied_pressure)`: raise if inlets
or outlets are unset; return `False` outright if the minimum outlet
invasion pressure exceeds the applied pressure; otherwise run the full
percolation check on the bond mask `invasion_pressure < applied_pressure`. -/
def is_percolating {Np Nt : ℕ} (net : Network Np Nt) (s : InvState Np Nt)
    (applied : ℚ) : Except String Bool :=
  if npSumBool s.poreInlets = 0 then
    Except.error "Inlet pores must be specified first"
  else if npSumBool s.poreOutlets = 0 then
    Except.error "Outlet pores must be specified first"
  else if ipGtThr (npAminIP (outletPressures s)) applied then
    Except.ok false
  else
    Except.ok (spec_ispercolating net
      (fun t => ipLtThr (s.throatInvPressure t) applied)
      s.poreInlets s.poreOutlets)

/-- `sp.amin` of a nonempty rational array (the dummy value `0` is only hit
on the empty array, on which numpy would raise). -/
def aminQ : List ℚ → ℚ
  | [] => 0
  | x :: xs => xs.foldl min x

/-- `sp.amax` of a nonempty rational array. -/
def amaxQ : List ℚ → ℚ
  | [] => 0
  | x :: xs => xs.foldl max x

/-- `np.linspace(a, b, num)` over the reals: `num` values `a + i*step` with
`step = (b-a)/(num-1)`, the endpoint included (for `num = 1` the division
by zero yields `0` in Lean and the single value is `a`, as in numpy). -/
noncomputable def np_linspace (a b : ℝ) (num : ℕ) : List ℝ :=
  (List.range num).map fun i : ℕ => a + (i : ℝ) * ((b - a) / ((num : ℝ) - 1))

/-- `sp.logspace(start, stop, num)`: `10 ** linspace(start, stop, num)`. -/
noncomputable def np_logspace (a b : ℝ) (num : ℕ) : List ℝ :=
  (np_linspace a b num).map fun x => (10 : ℝ) ^ x

/-- The auto-generated threshold list of `OrdinaryPercolation.run` when
`points` is an int and `start`/`stop` are both `None`, for a given
entry-pressure array: `logspace(log10(max(1, 0.95*amin)), log10(1.05*amax),
num=points)`. -/
noncomputable def logspacedPoints (entries : List ℚ) (numPoints : ℕ) : List ℝ :=
  let start : ℝ := (aminQ entries : ℚ) * 0.95
  let stop : ℝ := (amaxQ entries : ℚ) * 1.05
  np_logspace (Real.logb 10 (max 1 start)) (Real.logb 10 stop) numPoints

/-- The auto-generated points in bond mode (from
`phase[settings['throat_entry_pressure']]`). -/
noncomputable def genPointsBond (tentry : List ℚ) (numPoints : ℕ) : List ℝ :=
  logspacedPoints tentry numPoints

/-- The auto-generated points in site mode (from
`phase[settings['pore_entry_pressure']]`). -/
noncomputable def genPointsSite (pentry : List ℚ) (numPoints : ℕ) : List ℝ :=
  logspacedPoints pentry numPoints

/-- `np.any` on a float array: some entry is nonzero. -/
def np_any (l : List ℚ) : Bool := l.any fun x => x ≠ 0

/-- `Sarr = np.linspace(0, 1, num=10)` of
`RelativePermeability.setup_ip_algs`, as rationals. -/
def Sarr : List ℚ :=
  (List.range 10).map fun i => (i : ℚ) * ((1 - 0) / (10 - 1))

/-- Accumulator of the inner saturation loop of
`RelativePermeability.setup_ip_algs` for one axis pair: the achieved
saturations `Snwparr`, the two relative-permeability lists, and a count of
Stokes-flow solves performed (two per accepted saturation point). -/
structure SatSweepAcc where
  snwparr : List ℚ
  relperm_wp : List ℚ
  relperm_nwp : List ℚ
  solveCount : ℕ

/-- Modelled from the spec: the loop body for one target saturation `snw`
(source lines 146-184).  `occ` abstracts the occupancy query
`inv.results(Snwp=snw)['throat.occupancy']` (the `InvasionPercolation`
class is not part of the given sources) and `kw`/`knw` abstract
`Keff / baseline` for the wetting and non-wetting Stokes solves.  If the
occupancy array has no nonzero entry the body does nothing; otherwise it
records the saturation, runs the two solves and appends both relative
permeabilities. -/
def satSweepStep (occ : ℚ → List ℚ) (kw knw : ℚ → ℚ)
    (acc : SatSweepAcc) (snw : ℚ) : SatSweepAcc :=
  if np_any (occ snw) then
    { snwparr := acc.snwparr ++ [snw]
      relperm_wp := acc.relperm_wp ++ [kw snw]
      relperm_nwp := acc.relperm_nwp ++ [knw snw]
      solveCount := acc.solveCount + 2 }
  else acc

/-- The full saturation sweep for one axis pair: fold the loop body over
`Sarr` starting from empty accumulators. -/
def satSweep (occ : ℚ → List ℚ) (kw knw : ℚ → ℚ) : SatSweepAcc :=
  Sarr.foldl (satSweepStep occ kw knw) ⟨[], [], [], 0⟩

/-- The integer accumulator of the `'not_intersection'` branch of
`Tools._get_indices`: start from a zero int array and add `sp.int8(info)`
(0/1) once per requested label.  `info l e` is
`self._get_info(element, label=l)[e]`. -/
def notIntersectionCount {n : ℕ} (info : String → Fin n → Bool)
    (labels : List String) (e : Fin n) : ℤ :=
  labels.foldl (fun acc item => acc + if info item e then 1 else 0) 0

/-- The boolean mask `ind` returned by `Tools._get_indices` with
`mode='not_intersection'` and `return_indices=False` (the path taken by
`num_pores`/`num_throats`): `(count == 1)`. -/
def notIntersectionMask {n : ℕ} (info : String → Fin n → Bool)
    (labels : List String) (e : Fin n) : Bool :=
  notIntersectionCount info labels e == 1

/-- The index array returned with `return_indices=True` (the path taken by
`pores`/`throats`): `sp.where(ind == True)[0]`, the indices of the true
entries in ascending order. -/
def notIntersectionIndices {n : ℕ} (info : String → Fin n → Bool)
    (labels : List String) : List (Fin n) :=
  (List.finRange n).filter (notIntersectionMask info labels)

/-- `num_pores`/`num_throats` with `mode='not_intersection'`:
`sp.sum(mask)`, the number of true entries of the boolean mask. -/
def numNotIntersection {n : ℕ} (info : String → Fin n → Bool)
    (labels : List String) : ℕ :=
  (List.finRange n).countP (notIntersectionMask info labels)

/-- The lists observable around a call of `RelativePermeability.setup`:
what `settings['input_vect']` holds afterwards, and what the caller's
`input_vect` list object holds afterwards.  `input_vect.sort()` sorts the
caller's list in place and `settings['input_vect'] = input_vect` stores
that same (now sorted) object. -/
structure SetupResult where
  stored : List String
  caller_after : List String

/-- `RelativePermeability.setup` restricted to its treatment of
`input_vect` (source lines 45-48): sort the caller's list in place, then
store it. -/
def relpermSetup (input_vect : List String) : SetupResult :=
  let sortedVect := input_vect.insertionSort fun a b => a ≤ b
  ⟨sortedVect, sortedVect⟩

/-- The order in which `setup_ip_algs` visits the axis pairs (source lines
138-139): the elements of `settings['input_vect']` by ascending index. -/
def sweepAxisOrder (r : SetupResult) : List String := r.stored

/-- Pore `i` is part of an invaded cluster at applied pressure `v`
(its label in `labelsAt` is nonnegative). -/
def poreInvadesAt {Np Nt : ℕ} (net : Network Np Nt) (settings : PercSettings)
    (tentry : Fin Nt → ℚ) (pentry : Fin Np → ℚ) (inlets : Fin Np → Bool)
    (v : ℚ) (i : Fin Np) : Bool :=
  decide (0 ≤ (labelsAt net settings tentry pentry inlets v).sites i)

/-- Throat `t` is part of an invaded cluster at applied pressure `v`. -/
def throatInvadesAt {Np Nt : ℕ} (net : Network Np Nt)
    (settings : PercSettings) (tentry : Fin Nt → ℚ) (pentry : Fin Np → ℚ)
    (inlets : Fin Np → Bool) (v : ℚ) (t : Fin Nt) : Bool :=
  decide (0 ≤ (labelsAt net settings tentry pentry inlets v).bonds t)

section SweepLemmas

variable {Np Nt : ℕ} (net : Network Np Nt) (settings : PercSettings)
  (tentry : Fin Nt → ℚ) (pentry : Fin Np → ℚ) (inlets : Fin Np → Bool)

lemma sweepStep_pore (s : InvState Np Nt) (v : ℚ) (i : Fin Np) :
    (sweepStep net settings tentry pentry inlets s v).poreInvPressure i =
      if s.poreInvPressure i == none &&
          poreInvadesAt net settings tentry pentry inlets v i then some v
      else s.poreInvPressure i := rfl

lemma sweepStep_throat (s : InvState Np Nt) (v : ℚ) (t : Fin Nt) :
    (sweepStep net settings tentry pentry inlets s v).throatInvPressure t =
      if s.throatInvPressure t == none &&
          throatInvadesAt net settings tentry pentry inlets v t then some v
      else s.throatInvPressure t := rfl

lemma sweep_pore_some (points : List ℚ) (s : InvState Np Nt) {i : Fin Np}
    {w : ℚ} (h : s.poreInvPressure i = some w) :
    ((points.foldl (sweepStep net settings tentry pentry inlets) s)
      |>.poreInvPressure i) = some w := by
  induction points generalizing s with
  | nil => simpa using h
  | cons v rest ih =>
    simp only [List.foldl_cons]
    exact ih _ (by simp [sweepStep_pore, h])

lemma sweep_throat_some (points : List ℚ) (s : InvState Np Nt) {t : Fin Nt}
    {w : ℚ} (h : s.throatInvPressure t = some w) :
    ((points.foldl (sweepStep net settings tentry pentry inlets) s)
      |>.throatInvPressure t) = some w := by
  induction points generalizing s with
  | nil => simpa using h
  | cons v rest ih =>
    simp only [List.foldl_cons]
    exact ih _ (by simp [sweepStep_throat, h])

/-- First-invaded-wins for pores: starting from an uninvaded pore, the
sweep leaves exactly the first threshold whose cluster labeling invades the
pore (and `inf`, i.e. `none`, if no threshold ever does). -/
lemma sweep_pore_none (points : List ℚ) (s : InvState Np Nt) {i : Fin Np}
    (h : s.poreInvPressure i = none) :
    ((points.foldl (sweepStep net settings tentry pentry inlets) s)
      |>.poreInvPressure i) =
      points.find? (fun v => poreInvadesAt net settings tentry pentry inlets v i) := by
  induction points generalizing s with
  | nil => simpa using h
  | cons v rest ih =>
    simp only [List.foldl_cons]
    by_cases hm : poreInvadesAt net settings tentry pentry inlets v i = true
    · have hfind : List.find?
          (fun x => poreInvadesAt net settings tentry pentry inlets x i)
          (v :: rest) = some v := List.find?_cons_of_pos _ hm
      rw [sweep_pore_some net settings tentry pentry inlets rest _
        (show (sweepStep net settings tentry pentry inlets s v).poreInvPressure i
          = some v by simp [sweepStep_pore, h, hm]), hfind]
    · rw [ih _ (by simp [sweepStep_pore, h, hm]),
        List.find?_cons_of_neg _ (by simpa using hm)]

/-- First-invaded-wins for throats. -/
lemma sweep_throat_none (points : List ℚ) (s : InvState Np Nt) {t : Fin Nt}
    (h : s.throatInvPressure t = none) :
    ((points.foldl (sweepStep net settings tentry pentry inlets) s)
      |>.throatInvPressure t) =
      points.find? (fun v => throatInvadesAt net settings tentry pentry inlets v t) := by
  induction points generalizing s with
  | nil => simpa using h
  | cons v rest ih =>
    simp only [List.foldl_cons]
    by_cases hm : throatInvadesAt net settings tentry pentry inlets v t = true
    · have hfind : List.find?
          (fun x => throatInvadesAt net settings tentry pentry inlets x t)
          (v :: rest) = some v := List.find?_cons_of_pos _ hm
      rw [sweep_throat_some net settings tentry pentry inlets rest _
        (show (sweepStep net settings tentry pentry inlets s v).throatInvPressure t
          = some v by simp [sweepStep_throat, h, hm]), hfind]
    · rw [ih _ (by simp [sweepStep_throat, h, hm]),
        List.find?_cons_of_neg _ (by simpa using hm)]

/-- On success, `run` returns the sweep of the points followed by the
sequence conversion, with the inlet mask captured from the pre-state. -/
lemma run_ok (points : List ℚ) (s : InvState Np Nt) {s' : InvState Np Nt}
    (h : run net settings tentry pentry points s = Except.ok s') :
    s' = applySeq
      (points.foldl (sweepStep net settings tentry pentry s.poreInlets) s) := by
  unfold run at h
  split at h
  · exact Except.noConfusion h
  · split at h
    · exact Except.noConfusion h
    · injection h with h
      exact h.symm

end SweepLemmas

lemma applySeq_porePressure {Np Nt : ℕ} (s : InvState Np Nt) :
    (applySeq s).poreInvPressure = s.poreInvPressure := rfl

lemma applySeq_throatPressure {Np Nt : ℕ} (s : InvState Np Nt) :
    (applySeq s).throatInvPressure = s.throatInvPressure := rfl

lemma applySeq_poreSeq {Np Nt : ℕ} (s : InvState Np Nt) (i : Fin Np) :
    (applySeq s).poreInvSeq i =
      (np_searchsorted (np_unique (List.ofFn s.poreInvPressure))
        (s.poreInvPressure i) : ℤ) := rfl

lemma applySeq_throatSeq {Np Nt : ℕ} (s : InvState Np Nt) (t : Fin Nt) :
    (applySeq s).throatInvSeq t =
      (np_searchsorted (np_unique (List.ofFn s.throatInvPressure))
        (s.throatInvPressure t) : ℤ) := rfl

/-- `searchsorted` into the sorted deduplication counts the distinct values
strictly below the probe. -/
lemma np_searchsorted_np_unique (l : List IP) (x : IP) :
    np_searchsorted (np_unique l) x = l.dedup.countP fun y => ipLt y x :=
  List.Perm.countP_eq _ (List.perm_insertionSort _ _)

lemma ipLt_none_right (y : IP) : ipLt y none = y.isSome := by
  cases y <;> rfl

lemma ipLeThr_mono {a : IP} {p1 p2 : ℚ} (h : p1 ≤ p2)
    (h1 : ipLeThr a p1 = true) : ipLeThr a p2 = true := by
  cases a with
  | none => simp [ipLeThr] at h1
  | some x =>
    simp only [ipLeThr, decide_eq_true_eq] at h1 ⊢
    exact h1.trans h

lemma ipLt_mono_right {z : IP} {x y : ℚ} (h : x ≤ y)
    (h1 : ipLt z (some x) = true) : ipLt z (some y) = true := by
  cases z with
  | none => simp [ipLt] at h1
  | some w =>
    simp only [ipLt, decide_eq_true_eq] at h1 ⊢
    exact lt_of_lt_of_le h1 h

/-- C3.  `OrdinaryPercolation.results(Pc)` returns `pore.occupancy` and
`throat.occupancy` arrays that are `1.0` exactly where
`invasion_pressure <= Pc` (with `inf <= Pc` false) and `0.0` elsewhere, the
method call leaves the algorithm's state unchanged, and the query is
monotonic: for `p1 < p2` every element occupied at `p1` is occupied at
`p2`. -/
theorem results_occupancy_spec {Np Nt : ℕ} (s : InvState Np Nt)
    (p1 p2 : ℚ) (h : p1 < p2) :
    (resultsCall s p1).1 = s ∧
    (∀ i, ((results s p1).1 i = 1 ↔ ipLeThr (s.poreInvPressure i) p1 = true) ∧
      ((results s p1).1 i = 0 ↔ ipLeThr (s.poreInvPressure i) p1 = false)) ∧
    (∀ t, ((results s p1).2 t = 1 ↔ ipLeThr (s.throatInvPressure t) p1 = true) ∧
      ((results s p1).2 t = 0 ↔ ipLeThr (s.throatInvPressure t) p1 = false)) ∧
    (∀ i, (results s p1).1 i = 1 → (results s p2).1 i = 1) ∧
    (∀ t, (results s p1).2 t = 1 → (results s p2).2 t = 1) := by
  refine ⟨rfl, ?_, ?_, ?_, ?_⟩
  · intro i
    by_cases hocc : ipLeThr (s.poreInvPressure i) p1 = true <;>
      simp [results, hocc]
  · intro t
    by_cases hocc : ipLeThr (s.throatInvPressure t) p1 = true <;>
      simp [results, hocc]
  · intro i h1
    by_cases hocc : ipLeThr (s.poreInvPressure i) p1 = true
    · simp [results, ipLeThr_mono h.le hocc]
    · simp [results, hocc] at h1
  · intro t h1
    by_cases hocc : ipLeThr (s.throatInvPressure t) p1 = true
    · simp [results, ipLeThr_mono h.le hocc]
    · simp [results, hocc] at h1

/-- C3 witness: a concrete instantiation on a two-pore, one-throat state. -/
theorem results_occupancy_spec_witness :
    ((1 : ℚ) < 2) ∧
    (results (reset 2 1) 1).1 0 = 0 ∧
    ((results (reset 2 1) 1).1 0 = 1 → (results (reset 2 1) 2).1 0 = 1) := by
  refine ⟨by norm_num, ?_, ?_⟩
  · exact ((results_occupancy_spec (reset 2 1) 1 2 (by norm_num)).2.1 0).2.mpr
      (by decide)
  · exact (results_occupancy_spec (reset 2 1) 1 2 (by norm_num)).2.2.2.1 0

/-- C4.  `OrdinaryPercolation.run` raises whenever the configured mode is
neither `'bond'` nor `'site'`, and whenever `access_limited` is true but no
inlet pores are set; in both cases the invasion state is unchanged (both
`raise` statements precede every write to an invasion-state array). -/
theorem run_config_errors {Np Nt : ℕ} (net : Network Np Nt)
    (settings : PercSettings) (tentry : Fin Nt → ℚ) (pentry : Fin Np → ℚ)
    (points : List ℚ) (s : InvState Np Nt) :
    (settings.mode ≠ "bond" → settings.mode ≠ "site" →
      run net settings tentry pentry points s =
        Except.error "Percolation type has not been set" ∧
      runFinal net settings tentry pentry points s = s) ∧
    (settings.accessLimited = true → (∀ i, s.poreInlets i = false) →
      (settings.mode = "bond" ∨ settings.mode = "site") →
      run net settings tentry pentry points s =
        Except.error "Inlet pores must be specified first" ∧
      runFinal net settings tentry pentry points s = s) := by
  constructor
  · intro h1 h2
    have hrun : run net settings tentry pentry points s =
        Except.error "Percolation type has not been set" := by
      unfold run
      rw [if_pos ⟨h1, h2⟩]
    exact ⟨hrun, by unfold runFinal; rw [hrun]⟩
  · intro hal hin hmode
    have hsum : npSumBool s.poreInlets = 0 := by
      unfold npSumBool
      rw [List.countP_eq_zero]
      intro i _
      simp [hin i]
    have hrun : run net settings tentry pentry points s =
        Except.error "Inlet pores must be specified first" := by
      unfold run
      rw [if_neg, if_pos ⟨hal, hsum⟩]
      rcases hmode with hb | hb <;> simp [hb]
    exact ⟨hrun, by unfold runFinal; rw [hrun]⟩

/-- C4 witness: concrete bad configurations (an unset mode; a bond-mode,
access-limited run on a freshly reset state whose inlet mask is all
false). -/
theorem run_config_errors_witness :
    run (⟨fun _ => (0, 1)⟩ : Network 2 1) ⟨"", false⟩
      (fun _ => 2) (fun _ => 0) [1] (reset 2 1) =
      Except.error "Percolation type has not been set" ∧
    run (⟨fun _ => (0, 1)⟩ : Network 2 1) ⟨"bond", true⟩
      (fun _ => 2) (fun _ => 0) [1] (reset 2 1) =
      Except.error "Inlet pores must be specified first" := by
  constructor
  · exact ((run_config_errors _ ⟨"", false⟩ _ _ [1] (reset 2 1)).1
      (by decide) (by decide)).1
  · exact ((run_config_errors _ ⟨"bond", true⟩ _ _ [1] (reset 2 1)).2
      rfl (fun i => rfl) (Or.inl rfl)).1

lemma satSweep_foldl (occ : ℚ → List ℚ) (kw knw : ℚ → ℚ) (L : List ℚ)
    (acc : SatSweepAcc) :
    L.foldl (satSweepStep occ kw knw) acc =
      ⟨acc.snwparr ++ L.filter (fun s => np_any (occ s)),
       acc.relperm_wp ++ (L.filter (fun s => np_any (occ s))).map kw,
       acc.relperm_nwp ++ (L.filter (fun s => np_any (occ s))).map knw,
       acc.solveCount + 2 * (L.filter (fun s => np_any (occ s))).length⟩ := by
  induction L generalizing acc with
  | nil => simp
  | cons v rest ih =>
    simp only [List.foldl_cons, satSweepStep]
    by_cases hv : np_any (occ v) = true
    · rw [if_pos hv, ih]
      simp [List.filter_cons, hv, List.append_assoc]
      omega
    · rw [if_neg (by simpa using hv), ih]
      simp only [Bool.not_eq_true] at hv
      simp [List.filter_cons, hv]

/-- C8.  In the `RelativePermeability` saturation sweep over the fixed
sequence `Sarr = linspace(0, 1, 10)`, a target saturation whose occupancy
query returns no invaded throats contributes nothing: it is absent from the
achieved-saturation list, no relative-permeability entries are appended for
it, and no flow solves are run for it; the accepted points are exactly the
targets with some invaded throat, in sweep order, with two solves each. -/
theorem satSweep_skips_degenerate (occ : ℚ → List ℚ) (kw knw : ℚ → ℚ) :
    (satSweep occ kw knw).snwparr =
      Sarr.filter (fun s => np_any (occ s)) ∧
    (satSweep occ kw knw).relperm_wp =
      (Sarr.filter (fun s => np_any (occ s))).map kw ∧
    (satSweep occ kw knw).relperm_nwp =
      (Sarr.filter (fun s => np_any (occ s))).map knw ∧
    (satSweep occ kw knw).solveCount =
      2 * (Sarr.filter (fun s => np_any (occ s))).length ∧
    Sarr = [0, 1/9, 2/9, 3/9, 4/9, 5/9, 6/9, 7/9, 8/9, 1] := by
  have h := satSweep_foldl occ kw knw Sarr ⟨[], [], [], 0⟩
  unfold satSweep
  rw [h]
  refine ⟨by simp, by simp, by simp, by simp, ?_⟩
  unfold Sarr
  simp [List.range_succ]
  norm_num

lemma notIntersectionCount_eq_filter_length {n : ℕ}
    (info : String → Fin n → Bool) (labels : List String) (e : Fin n) :
    notIntersectionCount info labels e =
      ((labels.filter fun l => info l e).length : ℤ) := by
  unfold notIntersectionCount
  suffices h : ∀ acc : ℤ, labels.foldl
      (fun acc item => acc + if info item e then 1 else 0) acc =
      acc + ((labels.filter fun l => info l e).length : ℤ) by
    simpa using h 0
  induction labels with
  | nil => simp
  | cons l rest ih =>
    intro acc
    by_cases hl : info l e = true
    · simp [List.filter_cons_of_pos hl, hl, ih]
      ring
    · simp [List.filter_cons_of_neg (by simpa using hl), hl, ih]

/-- C9.  With `mode='not_intersection'`, `Tools._get_indices` selects
exactly the elements carrying exactly one of the requested labels: the
boolean mask (the `return_indices=False` path used by
`num_pores`/`num_throats`), the index array (the `return_indices=True`
path used by `pores`/`throats`), and the count all agree with the
"exactly one label" predicate; elements with zero or with two or more of
the labels are excluded. -/
theorem notIntersection_exactly_one {n : ℕ} (info : String → Fin n → Bool)
    (labels : List String) :
    (∀ e, notIntersectionMask info labels e = true ↔
      (labels.filter fun l => info l e).length = 1) ∧
    (∀ e, e ∈ notIntersectionIndices info labels ↔
      (labels.filter fun l => info l e).length = 1) ∧
    numNotIntersection info labels =
      ((List.finRange n).filter fun e =>
        decide ((labels.filter fun l => info l e).length = 1)).length := by
  have hmask : ∀ e, notIntersectionMask info labels e = true ↔
      (labels.filter fun l => info l e).length = 1 := by
    intro e
    unfold notIntersectionMask
    rw [notIntersectionCount_eq_filter_length]
    constructor
    · intro h
      have := beq_iff_eq.mp h
      exact_mod_cast this
    · intro h
      exact beq_iff_eq.mpr (by exact_mod_cast h)
  refine ⟨hmask, ?_, ?_⟩
  · intro e
    unfold notIntersectionIndices
    rw [List.mem_filter]
    simp [hmask e, List.mem_finRange]
  · unfold numNotIntersection
    rw [List.countP_eq_length_filter]
    congr 1
    apply List.filter_congr
    intro e _
    rw [Bool.eq_iff_iff, hmask e, decide_eq_true_eq]

/-- C10.  `RelativePermeability.setup` sorts the caller-supplied
`input_vect` list in place before storing it: afterwards the caller's list
object and `settings['input_vect']` are the same sorted permutation of the
given axis-pair strings, and `setup_ip_algs` visits the axis pairs in that
sorted order regardless of the order the caller gave them. -/
theorem setup_sorts_input_vect (v : List String) :
    (relpermSetup v).caller_after = (relpermSetup v).stored ∧
    List.Sorted (· ≤ ·) (relpermSetup v).stored ∧
    ((relpermSetup v).stored).Perm v ∧
    sweepAxisOrder (relpermSetup v) = (relpermSetup v).stored := by
  refine ⟨rfl, ?_, List.perm_insertionSort _ _, rfl⟩
  exact List.sorted_insertionSort _ _

/-- A three-pore network whose single throat joins pores 0 and 1; pore 2
touches no throat. -/
def netA : Network 3 1 := ⟨fun _ => (0, 1)⟩

/-- Plain (non access-limited) bond-mode settings. -/
def setA : PercSettings := ⟨"bond", false⟩

/-- A bond-mode run on `netA` with uniform throat entry pressure `2` and
the single threshold point `3`: pores 0 and 1 and the throat are invaded at
pressure 3; pore 2 is never invaded. -/
def runA : Except String (InvState 3 1) :=
  run netA setA (fun _ => 2) (fun _ => 0) [3] (reset 3 1)

/-- The state produced by `runA` (which succeeds). -/
def stateA : InvState 3 1 :=
  match runA with
  | Except.ok s => s
  | Except.error _ => reset 3 1

/-- A three-pore chain 0-1-2 whose throats have entry pressures 1 and 2. -/
def netB : Network 3 2 := ⟨fun t => if t = 0 then (0, 1) else (1, 2)⟩

/-- Throat entry pressures of the chain: 1 on throat 0, 2 on throat 1. -/
def tentryB : Fin 2 → ℚ := fun t => if t = 0 then 1 else 2

/-- A bond-mode run on `netB` sweeping the threshold points 1 then 2. -/
def runB : Except String (InvState 3 2) :=
  run netB setA tentryB (fun _ => 0) [1, 2] (reset 3 2)

/-- The state produced by `runB` (which succeeds): pore pressures
`[1, 1, 2]`, throat pressures `[1, 2]`. -/
def stateB : InvState 3 2 :=
  match runB with
  | Except.ok s => s
  | Except.error _ => reset 3 2

lemma countP_ipLt_inf (l : List IP) :
    (l.countP fun y => ipLt y none) = l.countP fun y => y.isSome :=
  List.countP_congr fun y _ => by rw [ipLt_none_right]

/-- C1 counterexample: on `runA`, pore 2 ends the sweep with
`invasion_pressure = inf` yet `invasion_sequence = 1`, not `-1` — the
epilogue `searchsorted(unique(Pinv), Pinv)` gives never-invaded elements
the rank of `inf`, overwriting the `-1` set by `reset`. -/
theorem run_uninvaded_seq_counterexample :
    runA = Except.ok stateA ∧
    stateA.poreInvPressure 2 = none ∧
    stateA.poreInvSeq 2 = 1 ∧
    stateA.poreInvSeq 2 ≠ -1 :=
  ⟨rfl, by decide, by decide, by decide⟩

/-- C1 (amended).  After a successful `OrdinaryPercolation.run`, every pore
and throat whose `invasion_pressure` is still `inf` has
`invasion_sequence` equal to the number of distinct finite invasion
pressures in its array (the 0-based rank of `inf`), which is nonnegative —
never `-1`. -/
theorem run_uninvaded_seq_rank {Np Nt : ℕ} (net : Network Np Nt)
    (settings : PercSettings) (tentry : Fin Nt → ℚ) (pentry : Fin Np → ℚ)
    (points : List ℚ) (s s' : InvState Np Nt)
    (hrun : run net settings tentry pentry points s = Except.ok s') :
    (∀ i, s'.poreInvPressure i = none →
      s'.poreInvSeq i =
        (((List.ofFn s'.poreInvPressure).dedup.filter fun y => y.isSome).length : ℤ)
      ∧ s'.poreInvSeq i ≠ -1) ∧
    (∀ t, s'.throatInvPressure t = none →
      s'.throatInvSeq t =
        (((List.ofFn s'.throatInvPressure).dedup.filter fun y => y.isSome).length : ℤ)
      ∧ s'.throatInvSeq t ≠ -1) := by
  have hs' := run_ok net settings tentry pentry points s hrun
  subst hs'
  constructor
  · intro i hP
    rw [applySeq_porePressure] at hP
    have hseq : (applySeq
        (points.foldl (sweepStep net settings tentry pentry s.poreInlets) s)
        |>.poreInvSeq i) =
        (((List.ofFn (points.foldl
            (sweepStep net settings tentry pentry s.poreInlets) s
            |>.poreInvPressure)).dedup.filter fun y => y.isSome).length : ℤ) := by
      rw [applySeq_poreSeq, hP, np_searchsorted_np_unique, countP_ipLt_inf,
        List.countP_eq_length_filter]
    rw [applySeq_porePressure]
    exact ⟨hseq, by rw [hseq]; omega⟩
  · intro t hP
    rw [applySeq_throatPressure] at hP
    have hseq : (applySeq
        (points.foldl (sweepStep net settings tentry pentry s.poreInlets) s)
        |>.throatInvSeq t) =
        (((List.ofFn (points.foldl
            (sweepStep net settings tentry pentry s.poreInlets) s
            |>.throatInvPressure)).dedup.filter fun y => y.isSome).length : ℤ) := by
      rw [applySeq_throatSeq, hP, np_searchsorted_np_unique, countP_ipLt_inf,
        List.countP_eq_length_filter]
    rw [applySeq_throatPressure]
    exact ⟨hseq, by rw [hseq]; omega⟩

/-- C1 (amended) witness: on `runA`, pore 2 is uninvaded and its sequence
value is the number of distinct finite pore pressures (here 1), not -1. -/
theorem run_uninvaded_seq_rank_witness :
    runA = Except.ok stateA ∧
    stateA.poreInvPressure 2 = none ∧
    stateA.poreInvSeq 2 =
      (((List.ofFn stateA.poreInvPressure).dedup.filter
        fun y => y.isSome).length : ℤ) ∧
    stateA.poreInvSeq 2 ≠ -1 := by
  have h := (run_uninvaded_seq_rank netA setA (fun _ => 2) (fun _ => 0) [3]
    (reset 3 1) stateA rfl).1 2 (by decide)
  exact ⟨rfl, by decide, h.1, h.2⟩

/-- C2.  Within one successful `run`, invasion pressures obey
first-invaded-wins: an element whose invasion pressure is already finite
keeps that value through the whole sweep (it is never overwritten by a
later threshold), an element starting at `inf` receives exactly the first
threshold of the sweep at which its cluster label is nonnegative (`inf` if
there is none), and in particular every finite pressure so assigned is one
of the sweep's threshold points. -/
theorem run_first_invaded_wins {Np Nt : ℕ} (net : Network Np Nt)
    (settings : PercSettings) (tentry : Fin Nt → ℚ) (pentry : Fin Np → ℚ)
    (points : List ℚ) (s s' : InvState Np Nt)
    (hrun : run net settings tentry pentry points s = Except.ok s') :
    (∀ i w, s.poreInvPressure i = some w → s'.poreInvPressure i = some w) ∧
    (∀ t w, s.throatInvPressure t = some w → s'.throatInvPressure t = some w) ∧
    (∀ i, s.poreInvPressure i = none → s'.poreInvPressure i = points.find?
      fun v => poreInvadesAt net settings tentry pentry s.poreInlets v i) ∧
    (∀ t, s.throatInvPressure t = none → s'.throatInvPressure t = points.find?
      fun v => throatInvadesAt net settings tentry pentry s.poreInlets v t) ∧
    (∀ i v, s.poreInvPressure i = none → s'.poreInvPressure i = some v →
      v ∈ points) ∧
    (∀ t v, s.throatInvPressure t = none → s'.throatInvPressure t = some v →
      v ∈ points) := by
  have hs' := run_ok net settings tentry pentry points s hrun
  subst hs'
  have hpore : ∀ i, s.poreInvPressure i = none → (applySeq
      (points.foldl (sweepStep net settings tentry pentry s.poreInlets) s)
      |>.poreInvPressure i) = points.find?
      fun v => poreInvadesAt net settings tentry pentry s.poreInlets v i := by
    intro i hi
    rw [applySeq_porePressure]
    exact sweep_pore_none net settings tentry pentry s.poreInlets points s hi
  have hthroat : ∀ t, s.throatInvPressure t = none → (applySeq
      (points.foldl (sweepStep net settings tentry pentry s.poreInlets) s)
      |>.throatInvPressure t) = points.find?
      fun v => throatInvadesAt net settings tentry pentry s.poreInlets v t := by
    intro t ht
    rw [applySeq_throatPressure]
    exact sweep_throat_none net settings tentry pentry s.poreInlets points s ht
  refine ⟨?_, ?_, hpore, hthroat, ?_, ?_⟩
  · intro i w hi
    rw [applySeq_porePressure]
    exact sweep_pore_some net settings tentry pentry s.poreInlets points s hi
  · intro t w ht
    rw [applySeq_throatPressure]
    exact sweep_throat_some net settings tentry pentry s.poreInlets points s ht
  · intro i v hi h
    rw [hpore i hi] at h
    exact List.mem_of_find?_eq_some h
  · intro t v ht h
    rw [hthroat t ht] at h
    exact List.mem_of_find?_eq_some h

/-- C2 witness: on `runB` (from a reset state), pore 2 gets pressure 2,
the first threshold of the sweep `[1, 2]` at which its cluster label is
nonnegative, and that value is one of the sweep's points. -/
theorem run_first_invaded_wins_witness :
    runB = Except.ok stateB ∧
    stateB.poreInvPressure 2 = ([1, 2].find?
      fun v => poreInvadesAt netB setA tentryB (fun _ => 0)
        (reset 3 2).poreInlets v 2) ∧
    stateB.poreInvPressure 2 = some 2 ∧
    (2 : ℚ) ∈ ([(1 : ℚ), 2]) := by
  have h := run_first_invaded_wins netB setA tentryB (fun _ => 0) [1, 2]
    (reset 3 2) stateB rfl
  refine ⟨rfl, h.2.2.1 2 rfl, by decide, ?_⟩
  exact h.2.2.2.2.1 2 2 rfl (by decide)

/-- C7.  After a successful `run`, `invasion_sequence` is an
order-preserving rank of `invasion_pressure`: among elements with finite
pressures, strictly smaller pressure gives a sequence value that is `≤`,
and equal pressures share the same sequence value (for pores and for
throats alike). -/
theorem run_seq_order_preserving {Np Nt : ℕ} (net : Network Np Nt)
    (settings : PercSettings) (tentry : Fin Nt → ℚ) (pentry : Fin Np → ℚ)
    (points : List ℚ) (s s' : InvState Np Nt)
    (hrun : run net settings tentry pentry points s = Except.ok s') :
    (∀ a b x y, s'.poreInvPressure a = some x →
      s'.poreInvPressure b = some y →
      (x < y → s'.poreInvSeq a ≤ s'.poreInvSeq b) ∧
      (x = y → s'.poreInvSeq a = s'.poreInvSeq b)) ∧
    (∀ a b x y, s'.throatInvPressure a = some x →
      s'.throatInvPressure b = some y →
      (x < y → s'.throatInvSeq a ≤ s'.throatInvSeq b) ∧
      (x = y → s'.throatInvSeq a = s'.throatInvSeq b)) := by
  have hs' := run_ok net settings tentry pentry points s hrun
  subst hs'
  constructor
  · intro a b x y ha hb
    rw [applySeq_porePressure] at ha hb
    constructor
    · intro hxy
      rw [applySeq_poreSeq, applySeq_poreSeq, ha, hb,
        np_searchsorted_np_unique, np_searchsorted_np_unique]
      exact_mod_cast List.countP_mono_left
        fun z _ hz => ipLt_mono_right hxy.le hz
    · intro hxy
      subst hxy
      rw [applySeq_poreSeq, applySeq_poreSeq, ha, hb]
  · intro a b x y ha hb
    rw [applySeq_throatPressure] at ha hb
    constructor
    · intro hxy
      rw [applySeq_throatSeq, applySeq_throatSeq, ha, hb,
        np_searchsorted_np_unique, np_searchsorted_np_unique]
      exact_mod_cast List.countP_mono_left
        fun z _ hz => ipLt_mono_right hxy.le hz
    · intro hxy
      subst hxy
      rw [applySeq_throatSeq, applySeq_throatSeq, ha, hb]

/-- C7 witness: on `runB`, pore 0 (pressure 1) ranks no higher than pore 2
(pressure 2), and pores 0 and 1 (both pressure 1) share a sequence value. -/
theorem run_seq_order_preserving_witness :
    runB = Except.ok stateB ∧
    stateB.poreInvPressure 0 = some 1 ∧
    stateB.poreInvPressure 1 = some 1 ∧
    stateB.poreInvPressure 2 = some 2 ∧
    stateB.poreInvSeq 0 ≤ stateB.poreInvSeq 2 ∧
    stateB.poreInvSeq 0 = stateB.poreInvSeq 1 := by
  have h := (run_seq_order_preserving netB setA tentryB (fun _ => 0) [1, 2]
    (reset 3 2) stateB rfl).1
  refine ⟨rfl, by decide, by decide, by decide, ?_, ?_⟩
  · exact (h 0 2 1 2 (by decide) (by decide)).1 (by norm_num)
  · exact (h 0 1 1 1 (by decide) (by decide)).2 rfl

lemma ipGtThr_ipMin (a b : IP) (p : ℚ) :
    ipGtThr (ipMin a b) p = (ipGtThr a p && ipGtThr b p) := by
  cases a with
  | none => cases b <;> simp [ipMin, ipLe, ipGtThr]
  | some x =>
    cases b with
    | none => simp [ipMin, ipLe, ipGtThr]
    | some y =>
      rcases le_or_lt x y with hxy | hxy
      · have hmin : ipMin (some x) (some y) = some x := by
          simp [ipMin, ipLe, hxy]
        rw [hmin]
        by_cases hp : p < x
        · simp [ipGtThr, hp, lt_of_lt_of_le hp hxy]
        · simp [ipGtThr, hp]
      · have hmin : ipMin (some x) (some y) = some y := by
          simp [ipMin, ipLe, not_le.mpr hxy]
        rw [hmin]
        by_cases hp : p < y
        · simp [ipGtThr, hp, hp.trans hxy]
        · simp [ipGtThr, hp]

lemma ipGtThr_npAmin (l : List IP) (p : ℚ) :
    ipGtThr (npAminIP l) p = l.all fun a => ipGtThr a p := by
  induction l with
  | nil => rfl
  | cons a rest ih =>
    rw [npAminIP, List.foldr_cons, ipGtThr_ipMin, List.all_cons]
    rw [npAminIP] at ih
    rw [ih]

/-- C5.  With inlets and outlets configured,
`OrdinaryPercolation.is_percolating(applied_pressure)` returns `False`
outright whenever the minimum outlet invasion pressure exceeds the applied
pressure (equivalently: every outlet pore's pressure exceeds it), and
otherwise decides percolation by the full connectivity check on the throat
mask `invasion_pressure < applied_pressure` (strict). -/
theorem is_percolating_two_tier {Np Nt : ℕ} (net : Network Np Nt)
    (s : InvState Np Nt) (applied : ℚ)
    (hin : npSumBool s.poreInlets ≠ 0) (hout : npSumBool s.poreOutlets ≠ 0) :
    (ipGtThr (npAminIP (outletPressures s)) applied = true →
      is_percolating net s applied = Except.ok false) ∧
    (ipGtThr (npAminIP (outletPressures s)) applied = false →
      is_percolating net s applied = Except.ok (spec_ispercolating net
        (fun t => ipLtThr (s.throatInvPressure t) applied)
        s.poreInlets s.poreOutlets)) ∧
    (ipGtThr (npAminIP (outletPressures s)) applied = true ↔
      ∀ o, s.poreOutlets o = true →
        ipGtThr (s.poreInvPressure o) applied = true) := by
  refine ⟨?_, ?_, ?_⟩
  · intro hfast
    unfold is_percolating
    rw [if_neg hin, if_neg hout, if_pos hfast]
  · intro hfast
    unfold is_percolating
    rw [if_neg hin, if_neg hout, if_neg (by simp [hfast])]
  · rw [ipGtThr_npAmin, List.all_eq_true]
    constructor
    · intro h o ho
      apply h
      unfold outletPressures
      exact List.mem_map_of_mem _
        (List.mem_filter.mpr ⟨List.mem_finRange o, ho⟩)
    · intro h p hp
      unfold outletPressures at hp
      obtain ⟨o, hoMem, rfl⟩ := List.mem_map.mp hp
      exact h o (List.mem_filter.mp hoMem).2

/-- A post-run-like state on the chain `netB`: pore pressures `[1, 1, 2]`,
throat pressures `[1, 2]`, inlet pore 0, outlet pore 2. -/
def stateC : InvState 3 2 :=
  { reset 3 2 with
    poreInvPressure := fun i => if i = 2 then some 2 else some 1
    throatInvPressure := fun t => if t = 0 then some 1 else some 2
    poreInlets := fun i => decide (i = 0)
    poreOutlets := fun i => decide (i = 2) }

/-- C5 witness: on `stateC`, applied pressure 3/2 takes the fast path
(outlet pressure 2 exceeds it) and returns false; applied pressure 5/2
takes the full check on the strict mask. -/
theorem is_percolating_two_tier_witness :
    npSumBool stateC.poreInlets ≠ 0 ∧
    npSumBool stateC.poreOutlets ≠ 0 ∧
    ipGtThr (npAminIP (outletPressures stateC)) 1 = true ∧
    is_percolating netB stateC 1 = Except.ok false ∧
    is_percolating netB stateC 3 = Except.ok (spec_ispercolating netB
      (fun t => ipLtThr (stateC.throatInvPressure t) 3)
      stateC.poreInlets stateC.poreOutlets) := by
  refine ⟨by decide, by decide, by decide, ?_, ?_⟩
  · exact (is_percolating_two_tier netB stateC 1 (by decide)
      (by decide)).1 (by decide)
  · exact (is_percolating_two_tier netB stateC 3 (by decide)
      (by decide)).2.1 (by decide)

lemma np_linspace_length (a b : ℝ) (num : ℕ) :
    (np_linspace a b num).length = num := by
  simp [np_linspace]

lemma np_linspace_head (a b : ℝ) {num : ℕ} (h : 1 ≤ num) :
    (np_linspace a b num).head? = some a := by
  obtain ⟨m, rfl⟩ : ∃ m, num = m + 1 := ⟨num - 1, by omega⟩
  simp [np_linspace, List.range_succ_eq_map]

lemma np_linspace_getLast (a b : ℝ) {num : ℕ} (h : 2 ≤ num) :
    (np_linspace a b num).getLast? = some b := by
  rw [List.getLast?_eq_getElem?, np_linspace_length]
  unfold np_linspace
  rw [List.getElem?_map, List.getElem?_range (by omega : num - 1 < num)]
  have hc : ((num - 1 : ℕ) : ℝ) = (num : ℝ) - 1 := by
    have : 1 ≤ num := by omega
    push_cast [this]
    ring
  have hne : (num : ℝ) - 1 ≠ 0 := by
    have h2R : (2 : ℝ) ≤ (num : ℝ) := by exact_mod_cast h
    intro hzero
    have : (num : ℝ) = 1 := by linarith
    linarith
  rw [Option.map_some']
  congr 1
  rw [hc]
  field_simp

lemma np_logspace_length (a b : ℝ) (num : ℕ) :
    (np_logspace a b num).length = num := by
  rw [np_logspace, List.length_map, np_linspace_length]

lemma np_logspace_head (a b : ℝ) {num : ℕ} (h : 1 ≤ num) :
    (np_logspace a b num).head? = some ((10 : ℝ) ^ a) := by
  rw [np_logspace, List.head?_map, np_linspace_head a b h]
  rfl

lemma np_logspace_getLast (a b : ℝ) {num : ℕ} (h : 2 ≤ num) :
    (np_logspace a b num).getLast? = some ((10 : ℝ) ^ b) := by
  rw [np_logspace, List.getLast?_map, np_linspace_getLast a b h]
  rfl

/-- C6 counterexample: with a single throat entry pressure `1/2`, the
auto-generated sweep does not start at `0.95 × min = 0.475`; because of
the `max(1, start)` clamp in the source, its first value is `1`. -/
theorem genPoints_start_clamped_counterexample :
    aminQ [(1 : ℚ)/2] = 1/2 ∧
    (genPointsBond [(1 : ℚ)/2] 5).head? = some 1 ∧
    ((aminQ [(1 : ℚ)/2] : ℝ) * 0.95 : ℝ) = 0.475 ∧
    (1 : ℝ) ≠ 0.475 := by
  refine ⟨rfl, ?_, by norm_num [aminQ], by norm_num⟩
  unfold genPointsBond logspacedPoints
  rw [np_logspace_head _ _ (by norm_num)]
  have h1 : max (1 : ℝ) ((aminQ [(1 : ℚ)/2] : ℝ) * 0.95) = 1 := by
    rw [max_eq_left]
    norm_num [aminQ]
  rw [h1, Real.logb_one, Real.rpow_zero]

/-- C6 (amended).  When `run` is called with an integer `points` count (at
least 2) and no explicit start/stop, the sweep consists of exactly that
many logarithmically spaced values whose first value is
`max(1, 0.95 × min)` — the source clamps the start of the exponent range
to `log10(max(1, start))` — and whose last value is `1.05 × max` of the
active mode's entry-pressure array (throat entries in bond mode, pore
entries in site mode), provided that maximum is positive. -/
theorem genPoints_logspace_clamped (entries : List ℚ) (num : ℕ)
    (h2 : 2 ≤ num) (hmax : 0 < amaxQ entries) :
    ((genPointsBond entries num).length = num ∧
     (genPointsBond entries num).head? =
       some (max 1 ((aminQ entries : ℝ) * 0.95)) ∧
     (genPointsBond entries num).getLast? =
       some ((amaxQ entries : ℝ) * 1.05)) ∧
    ((genPointsSite entries num).length = num ∧
     (genPointsSite entries num).head? =
       some (max 1 ((aminQ entries : ℝ) * 0.95)) ∧
     (genPointsSite entries num).getLast? =
       some ((amaxQ entries : ℝ) * 1.05)) := by
  have hmaxR : (0 : ℝ) < (amaxQ entries : ℝ) := by exact_mod_cast hmax
  have hstop : (0 : ℝ) < (amaxQ entries : ℝ) * 1.05 := by positivity
  have hstart : (0 : ℝ) < max 1 ((aminQ entries : ℝ) * 0.95) :=
    lt_of_lt_of_le zero_lt_one (le_max_left _ _)
  have hcore : (logspacedPoints entries num).length = num ∧
      (logspacedPoints entries num).head? =
        some (max 1 ((aminQ entries : ℝ) * 0.95)) ∧
      (logspacedPoints entries num).getLast? =
        some ((amaxQ entries : ℝ) * 1.05) := by
    unfold logspacedPoints
    refine ⟨np_logspace_length _ _ _, ?_, ?_⟩
    · rw [np_logspace_head _ _ (by omega),
        Real.rpow_logb (by norm_num) (by norm_num) hstart]
    · rw [np_logspace_getLast _ _ h2,
        Real.rpow_logb (by norm_num) (by norm_num) hstop]
  exact ⟨hcore, hcore⟩

/-- C6 (amended) witness: entry pressures `[2, 4]` with a 3-point sweep. -/
theorem genPoints_logspace_clamped_witness :
    (2 ≤ 3 ∧ (0 : ℚ) < amaxQ [2, 4]) ∧
    (genPointsBond [(2 : ℚ), 4] 3).length = 3 ∧
    (genPointsBond [(2 : ℚ), 4] 3).head? =
      some (max 1 ((aminQ [(2 : ℚ), 4] : ℝ) * 0.95)) ∧
    (genPointsBond [(2 : ℚ), 4] 3).getLast? =
      some ((amaxQ [(2 : ℚ), 4] : ℝ) * 1.05) := by
  have h := (genPoints_logspace_clamped [2, 4] 3 (by norm_num) (by decide)).1
  exact ⟨⟨by norm_num, by decide⟩, h.1, h.2.1, h.2.2⟩

end OpenPNMCore
